import Mathlib

/-!
Verification of the Textami OOXML style-ingestion engine
(`scripts/ingest_docx.py`).

The development shallowly embeds the two layers the specification talks
about:

* the style-catalog extraction layer (`OOXMLStyleParser.extract_styles_xml`
  together with the surrounding `process_full_pipeline` error handling),
  modelled over an abstract zip-read result so that unreadable packages and
  malformed style elements are explicit inputs; and
* the semantic mapping engine (`generate_html_semantic_mappings`,
  `_map_style_to_html`, `_generate_fallback_mapping`,
  `_ensure_basic_mappings`), modelled as pure functions over ordered
  association lists that mirror CPython dict semantics (insertion order is
  preserved; assigning to an existing key overwrites its value in place;
  a new key is appended).

File I/O (`save_outputs`), the numbering extractor and the document
structure walk are external collaborators in the specification; they feed
nothing into the style manifest, and the latter two swallow their own
exceptions exactly like the style extractor, so the manifest-relevant
pipeline is fully captured by the styles payload.
-/

namespace Textami

/-- Python `str.lower()`: character-wise lowering of the underlying
character sequence (every keyword the heuristic compares against is
ASCII). -/
def pyLower (s : String) : String := ⟨s.data.map Char.toLower⟩

/-- Helper for substring membership over character lists: does `pat` occur
contiguously inside the second list? -/
def strContainsAux (pat : List Char) : List Char → Bool
  | [] => pat.isPrefixOf []
  | c :: t => pat.isPrefixOf (c :: t) || strContainsAux pat t

/-- Python `pat in s` on strings. -/
def pyContains (s pat : String) : Bool := strContainsAux pat.data s.data

/-- CPython dict assignment `m[k] = v` on a dict kept as an ordered
association list: an existing key keeps its position and receives the new
value, a fresh key is appended at the end. -/
def dictInsert {α β : Type} [BEq α] (m : List (α × β)) (k : α) (v : β) :
    List (α × β) :=
  if m.any (fun p => p.1 == k) then
    m.map (fun p => if p.1 == k then (k, v) else p)
  else m ++ [(k, v)]

/-- CPython dict lookup `m.get(k)`. -/
def dictLookup {α β : Type} [BEq α] (m : List (α × β)) (k : α) : Option β :=
  (m.find? (fun p => p.1 == k)).map (fun p => p.2)

/-- The keys of an association-list dict, in insertion order. -/
def dictKeys {α β : Type} (m : List (α × β)) : List α := m.map Prod.fst

/-- `self.html_vocabulary` from `OOXMLStyleParser.__init__`: the fixed
semantic-tag vocabulary with its illustrative Word style names. -/
def html_vocabulary : List (String × String) :=
  [("h1", "Heading 1, Title, Heading1Char"),
   ("h2", "Heading 2, Subtitle, Heading2Char"),
   ("h3", "Heading 3, Heading3Char"),
   ("p", "Normal, BodyText, DefaultParagraphFont"),
   ("p.BodyText", "Body Text, BodyTextChar"),
   ("ul.Bulleted", "List Bullet, ListBullet, BulletList"),
   ("ol.Numbered", "List Number, ListNumber, NumberedList"),
   ("table.StdTable", "Table Grid, TableGrid, StandardTable"),
   ("blockquote", "Quote, BlockText, IntenseQuote")]

/-- `list(self.html_vocabulary.keys())`: the nine-tag closed vocabulary. -/
def vocabKeys : List String := html_vocabulary.map Prod.fst

/-- `OOXMLStyleParser._map_style_to_html`: the ordered first-match-wins
heuristic from Word style name/type to a semantic tag, `none` when no rule
fires. -/
def map_style_to_html (style_name style_type : String) : Option String :=
  let style_lower := pyLower style_name
  if pyContains style_lower "heading 1" || style_lower == "title" then some "h1"
  else if pyContains style_lower "heading 2" || pyContains style_lower "subtitle" then some "h2"
  else if pyContains style_lower "heading 3" then some "h3"
  else if pyContains style_lower "body" || pyContains style_lower "normal" then some "p"
  else if pyContains style_lower "body text" then some "p.BodyText"
  else if pyContains style_lower "list bullet" || pyContains style_lower "bullet" then some "ul.Bulleted"
  else if pyContains style_lower "list number" || pyContains style_lower "numbered" then some "ol.Numbered"
  else if style_type == "table" || pyContains style_lower "table" then some "table.StdTable"
  else if pyContains style_lower "quote" || pyContains style_lower "block" then some "blockquote"
  else none

/-- `OOXMLStyleParser._generate_fallback_mapping`: fallback tag for styles
no heuristic rule matched. -/
def generate_fallback_mapping (style_name style_type : String) : String :=
  if style_type == "table" then "table.StdTable" else "p"

/-- The warning appended for each fallback event, Python
`f"Unknown style '{style_name}' mapped to '{fallback_element}'"`. -/
def fallbackWarning (style_name fallback_element : String) : String :=
  "Unknown style \x27" ++ style_name ++ "\x27 mapped to \x27" ++
    fallback_element ++ "\x27"

/-- The `essentials` table of `OOXMLStyleParser._ensure_basic_mappings`. -/
def essentials : List (String × String) :=
  [("h1", "Heading 1"), ("h2", "Heading 2"), ("p", "Normal"),
   ("table.StdTable", "Table Grid")]

/-- One step of `_ensure_basic_mappings`:
`if html_element not in mappings: mappings[html_element] = default_style`. -/
def ensureStep (m : List (String × String)) (e : String × String) :
    List (String × String) :=
  if m.any (fun p => p.1 == e.1) then m else dictInsert m e.1 e.2

/-- `OOXMLStyleParser._ensure_basic_mappings`: synthesize a default entry
for every essential tag not yet present in the mappings dict. -/
def ensure_basic_mappings (mappings : List (String × String)) :
    List (String × String) :=
  essentials.foldl ensureStep mappings

/-- A well-formed style-catalog record as the mapping loop reads it:
`style_id` key with its `name` and `type` attributes present. -/
structure StyleDefinition where
  id : String
  name : String
  kind : String
deriving Repr, DecidableEq

/-- The mutable loop state of `generate_html_semantic_mappings`:
`mappings`, `fallbacks` and `warnings` as built up style by style. -/
structure ClassState where
  mappings : List (String × String)
  fallbacks : List (String × String)
  warnings : List String
deriving Repr, DecidableEq

/-- The empty loop state (`mappings = {}`, `warnings = []`,
`fallbacks = {}`). -/
def initState : ClassState := ⟨[], [], []⟩

/-- The body of the mapping loop for one considered style: record the
heuristic match in `mappings`, or route to the fallback dict and append
one warning. -/
def processStyle (st : ClassState) (style_name style_type : String) :
    ClassState :=
  match map_style_to_html style_name style_type with
  | some html_element =>
      { st with mappings := dictInsert st.mappings html_element style_name }
  | none =>
      let fallback_element := generate_fallback_mapping style_name style_type
      { st with
          fallbacks := dictInsert st.fallbacks style_name fallback_element,
          warnings := st.warnings ++ [fallbackWarning style_name fallback_element] }

/-- One iteration of the mapping loop over a catalog entry: character and
other non-paragraph/table styles are skipped (`continue`), the rest are
processed. -/
def classifyStep (st : ClassState) (sd : StyleDefinition) : ClassState :=
  if !(sd.kind == "paragraph" || sd.kind == "table") then st
  else processStyle st sd.name sd.kind

/-- The whole mapping loop of `generate_html_semantic_mappings` over the
style catalog in extraction order. -/
def classifyFold (styles_data : List StyleDefinition) : ClassState :=
  styles_data.foldl classifyStep initState

/-- The style manifest built by `generate_html_semantic_mappings`
(run-time metadata `generatedAt` and `docx_path` omitted: they are
environment readings with no classification content). -/
structure StyleManifest where
  version : String
  styles : List (String × String)
  fallbacks : List (String × String)
  warnings : List String
  vocabulary : List String
  total_styles_found : Nat
  mapped_styles : Nat
  fallback_styles : Nat
deriving Repr, DecidableEq

/-- `OOXMLStyleParser.generate_html_semantic_mappings` on a well-formed
style catalog: run the loop, ensure the basic mappings, and assemble the
manifest with its statistics (`total_styles_found = len(self.styles_data)`,
`mapped_styles = len(mappings)`, `fallback_styles = len(fallbacks)`). -/
def generate_html_semantic_mappings (styles_data : List StyleDefinition) :
    StyleManifest :=
  let st := classifyFold styles_data
  let mappings := ensure_basic_mappings st.mappings
  { version := "1.0"
    styles := mappings
    fallbacks := st.fallbacks
    warnings := st.warnings
    vocabulary := vocabKeys
    total_styles_found := styles_data.length
    mapped_styles := mappings.length
    fallback_styles := st.fallbacks.length }

/-- Predicate: the mapping loop considers this style (its `kind` is
`paragraph` or `table`). -/
def isConsidered (sd : StyleDefinition) : Bool :=
  sd.kind == "paragraph" || sd.kind == "table"

/-- Number of considered styles in a catalog. -/
def consideredCount (styles_data : List StyleDefinition) : Nat :=
  (styles_data.filter isConsidered).length

/-- Predicate: the style is considered but no heuristic rule matches it,
so it is routed to a fallback. -/
def isUnmatched (sd : StyleDefinition) : Bool :=
  isConsidered sd && (map_style_to_html sd.name sd.kind).isNone

/-- Number of considered-but-unmatched styles in a catalog. -/
def unmatchedCount (styles_data : List StyleDefinition) : Nat :=
  (styles_data.filter isUnmatched).length

/-- Invariant of the `mappings` dict maintained by the mapping loop and
the ensure-basics pass: keys are distinct and drawn from the fixed
nine-tag vocabulary. -/
def MapInv (m : List (String × String)) : Prop :=
  (dictKeys m).Nodup ∧ ∀ k ∈ dictKeys m, k ∈ vocabKeys

/-- A raw `w:style` element of `word/styles.xml` as
`extract_styles_xml` reads it: each attribute or child element may be
absent. `nameElem`/`basedOnElem` is `none` when the child element is
missing, `some none` when the element is present without its `w:val`
attribute. -/
structure RawStyle where
  styleId : Option String
  type_ : Option String
  nameElem : Option (Option String)
  basedOnElem : Option (Option String)
deriving Repr, DecidableEq

/-- The value stored in `self.styles_data` for one style (the held XML
element is dropped: nothing downstream reads it). -/
structure StyleData where
  name : Option String
  type_ : Option String
  basedOn : Option String
deriving Repr, DecidableEq

/-- Result of reading a payload out of the zip package: `err` covers both
an unreadable archive and a missing `word/styles.xml` member (both raise
inside the `try` of `extract_styles_xml`). -/
inductive ZipResult (α : Type) where
  | ok (val : α)
  | err (msg : String)
deriving Repr, DecidableEq

/-- The body of the extraction loop for one `w:style` element:
`style_id = elem.get(styleId)` (may be `None`), the name defaults to the
id when the `w:name` child is absent, and the record is stored under
`styles[style_id]`. -/
def extractStyleElem (styles : List (Option String × StyleData))
    (r : RawStyle) : List (Option String × StyleData) :=
  let style_id := r.styleId
  let style_name := match r.nameElem with
    | some v => v
    | none => style_id
  let based_on := match r.basedOnElem with
    | some v => v
    | none => none
  dictInsert styles style_id ⟨style_name, r.type_, based_on⟩

/-- `OOXMLStyleParser.extract_styles_xml`: on any zip/read failure the
`except` branch prints and returns the empty dict; otherwise every style
element is folded into `styles_data`. -/
def extract_styles_xml (payload : ZipResult (List RawStyle)) :
    List (Option String × StyleData) :=
  match payload with
  | .err _ => []
  | .ok elems => elems.foldl extractStyleElem []

/-- One iteration of the mapping loop over a raw `styles_data` entry:
non-paragraph/table entries are skipped; a considered entry with a `None`
name raises `AttributeError` inside `_map_style_to_html`
(`style_name.lower()`), which escapes to the pipeline handler. -/
def classifyEntry (st : ClassState) (e : Option String × StyleData) :
    Except String ClassState :=
  match e.2.type_ with
  | none => .ok st
  | some style_type =>
    if style_type == "paragraph" || style_type == "table" then
      match e.2.name with
      | some style_name => .ok (processStyle st style_name style_type)
      | none =>
          .error "AttributeError: \x27NoneType\x27 object has no attribute \x27lower\x27"
    else .ok st

/-- `generate_html_semantic_mappings` as run by the pipeline over the raw
`self.styles_data` dict (errors propagate to the pipeline handler). -/
def generate_manifest_from_data
    (styles_data : List (Option String × StyleData)) :
    Except String StyleManifest :=
  match styles_data.foldlM classifyEntry initState with
  | .error e => .error e
  | .ok st =>
      let mappings := ensure_basic_mappings st.mappings
      .ok { version := "1.0"
            styles := mappings
            fallbacks := st.fallbacks
            warnings := st.warnings
            vocabulary := vocabKeys
            total_styles_found := styles_data.length
            mapped_styles := mappings.length
            fallback_styles := st.fallbacks.length }

/-- The caller-visible result of `process_full_pipeline`. -/
structure PipelineResult where
  success : Bool
  error : Option String
  style_manifest : Option StyleManifest
deriving Repr, DecidableEq

/-- `OOXMLStyleParser.process_full_pipeline` restricted to the
manifest-relevant data flow: extract the style catalog (extraction
failures are swallowed there, yielding the empty catalog), generate the
mappings, and wrap either the manifest in a success result or a caught
exception in `{success: false, error: str(e)}`. -/
def process_full_pipeline (stylesPayload : ZipResult (List RawStyle)) :
    PipelineResult :=
  let styles_data := extract_styles_xml stylesPayload
  match generate_manifest_from_data styles_data with
  | .ok m => { success := true, error := none, style_manifest := some m }
  | .error e => { success := false, error := some e, style_manifest := none }

/-! ### Substring lemmas

`pyContains s "body text"` forces `pyContains s "body"`: the shorter
keyword is a prefix of the longer one, so the rule-4 test subsumes the
rule-5 test. -/

theorem isPrefixOf_append_left {l₁ l₂ s : List Char}
    (h : (l₁ ++ l₂).isPrefixOf s = true) : l₁.isPrefixOf s = true := by
  rw [List.isPrefixOf_iff_prefix] at h ⊢
  exact (List.prefix_append l₁ l₂).trans h

theorem strContainsAux_append_left {l₁ l₂ : List Char} :
    ∀ {s : List Char}, strContainsAux (l₁ ++ l₂) s = true →
      strContainsAux l₁ s = true
  | [], h => by
      unfold strContainsAux at h ⊢
      exact isPrefixOf_append_left h
  | c :: t, h => by
      unfold strContainsAux at h ⊢
      simp only [Bool.or_eq_true] at h ⊢
      rcases h with h1 | h2
      · exact Or.inl (isPrefixOf_append_left h1)
      · exact Or.inr (strContainsAux_append_left h2)

theorem pyContains_body_of_body_text {s : String}
    (h : pyContains s "body text" = true) : pyContains s "body" = true := by
  have e : ("body text" : String).data = ("body" : String).data ++ (" text" : String).data := by
    decide
  unfold pyContains at h ⊢
  rw [e] at h
  exact strContainsAux_append_left h

/-! ### Association-list dict lemmas -/

section DictLemmas

variable {α β : Type} [BEq α] [LawfulBEq α]

theorem find?_dictUpdate (m : List (α × β)) (k : α) (v : β) :
    (m.map (fun p => if p.1 == k then (k, v) else p)).find? (fun p => p.1 == k)
      = if m.any (fun p => p.1 == k) then some (k, v) else none := by
  induction m with
  | nil => rfl
  | cons p t ih =>
      by_cases hp : (p.1 == k) = true
      · simp [List.find?, hp]
      · simp only [List.map_cons, List.find?, hp, if_neg, Bool.false_eq_true,
          not_false_eq_true, List.any_cons, Bool.false_or, if_false]
        simpa [hp] using ih

theorem find?_dictUpdate_ne (m : List (α × β)) {k k' : α} (v : β)
    (h : (k' == k) = false) :
    (m.map (fun p => if p.1 == k' then (k', v) else p)).find? (fun p => p.1 == k)
      = m.find? (fun p => p.1 == k) := by
  induction m with
  | nil => rfl
  | cons p t ih =>
      by_cases hp : (p.1 == k') = true
      · have hpk : (p.1 == k) = false := by rw [eq_of_beq hp]; exact h
        simp [List.find?, hp, h, hpk, ih]
      · by_cases hk : (p.1 == k) = true
        · simp [List.find?, hp, hk]
        · simp [List.find?, hp, hk, ih]

theorem find?_append_none {l₁ l₂ : List (α × β)} {p : α × β → Bool}
    (h : l₁.find? p = none) : (l₁ ++ l₂).find? p = l₂.find? p := by
  rw [List.find?_append, h, Option.none_or]

theorem any_beq_eq_true_iff (m : List (α × β)) (k : α) :
    m.any (fun p => p.1 == k) = true ↔ k ∈ dictKeys m := by
  rw [List.any_eq_true]
  unfold dictKeys
  constructor
  · rintro ⟨p, hp, hbeq⟩
    exact List.mem_map.mpr ⟨p, hp, eq_of_beq hbeq⟩
  · intro hk
    rcases List.mem_map.mp hk with ⟨p, hp, hfst⟩
    exact ⟨p, hp, by rw [hfst]; exact beq_self_eq_true k⟩

theorem find?_eq_none_of_not_any {m : List (α × β)} {k : α}
    (h : ¬m.any (fun p => p.1 == k) = true) :
    m.find? (fun p => p.1 == k) = none := by
  rw [List.find?_eq_none]
  intro x hx hpx
  exact h (List.any_eq_true.mpr ⟨x, hx, hpx⟩)

theorem dictLookup_dictInsert_self (m : List (α × β)) (k : α) (v : β) :
    dictLookup (dictInsert m k v) k = some v := by
  unfold dictInsert dictLookup
  by_cases h : m.any (fun p => p.1 == k) = true
  · rw [if_pos h, find?_dictUpdate, if_pos h]; rfl
  · rw [if_neg h, find?_append_none (find?_eq_none_of_not_any h)]
    simp [List.find?]

theorem dictLookup_dictInsert_ne (m : List (α × β)) {k k' : α} (v : β)
    (h : (k' == k) = false) :
    dictLookup (dictInsert m k' v) k = dictLookup m k := by
  unfold dictInsert dictLookup
  by_cases ha : m.any (fun p => p.1 == k') = true
  · rw [if_pos ha, find?_dictUpdate_ne m v h]
  · rw [if_neg ha, List.find?_append]
    have : ([(k', v)].find? (fun p => p.1 == k)) = none := by
      simp [List.find?, h]
    rw [this, Option.or_none]

theorem dictLookup_isSome_iff (m : List (α × β)) (k : α) :
    (dictLookup m k).isSome = true ↔ k ∈ dictKeys m := by
  unfold dictLookup
  have hm : (Option.map (fun p : α × β => p.2) (m.find? (fun p => p.1 == k))).isSome
      = (m.find? (fun p => p.1 == k)).isSome := by
    cases m.find? (fun p => p.1 == k) <;> rfl
  rw [hm, ← any_beq_eq_true_iff m k]
  constructor
  · intro hs
    rcases Option.isSome_iff_exists.mp hs with ⟨p, hp⟩
    have h1 := List.mem_of_find?_eq_some hp
    have h2 := List.find?_some hp
    exact List.any_eq_true.mpr ⟨p, h1, h2⟩
  · intro ha
    rcases List.any_eq_true.mp ha with ⟨p, hp, hpred⟩
    cases hf : m.find? (fun q => q.1 == k) with
    | some q => rfl
    | none => exact absurd hpred (List.find?_eq_none.mp hf p hp)

theorem dictKeys_dictInsert (m : List (α × β)) (k : α) (v : β) :
    dictKeys (dictInsert m k v)
      = if m.any (fun p => p.1 == k) then dictKeys m else dictKeys m ++ [k] := by
  unfold dictInsert dictKeys
  by_cases h : m.any (fun p => p.1 == k) = true
  · rw [if_pos h, if_pos h, List.map_map]
    have : (Prod.fst ∘ fun p : α × β => if p.1 == k then (k, v) else p) = Prod.fst := by
      funext p
      show Prod.fst (if p.1 == k then (k, v) else p) = p.1
      by_cases hp : (p.1 == k) = true
      · rw [if_pos hp]; exact (eq_of_beq hp).symm
      · rw [if_neg hp]
    rw [this]
  · rw [if_neg h, if_neg h, List.map_append]; rfl

theorem mem_dictKeys_dictInsert {m : List (α × β)} {k k' : α} {v : β}
    (h : k' ∈ dictKeys (dictInsert m k v)) : k' ∈ dictKeys m ∨ k' = k := by
  rw [dictKeys_dictInsert] at h
  by_cases ha : m.any (fun p => p.1 == k) = true
  · rw [if_pos ha] at h; exact Or.inl h
  · rw [if_neg ha] at h
    rcases List.mem_append.mp h with h | h
    · exact Or.inl h
    · exact Or.inr (List.mem_singleton.mp h)

theorem dictKeys_nodup_dictInsert (m : List (α × β)) (k : α) (v : β)
    (h : (dictKeys m).Nodup) : (dictKeys (dictInsert m k v)).Nodup := by
  rw [dictKeys_dictInsert]
  by_cases ha : m.any (fun p => p.1 == k) = true
  · rw [if_pos ha]; exact h
  · rw [if_neg ha, List.nodup_append]
    refine ⟨h, List.nodup_singleton k, ?_⟩
    intro x hx hk
    rcases List.mem_singleton.mp hk with rfl
    exact ha ((any_beq_eq_true_iff m x).mpr hx)

theorem dictKeys_length (m : List (α × β)) : (dictKeys m).length = m.length :=
  List.length_map m Prod.fst

end DictLemmas

/-! ### Lemmas about `_ensure_basic_mappings` -/

theorem ensure_basic_mappings_eq (m : List (String × String)) :
    ensure_basic_mappings m
      = ensureStep (ensureStep (ensureStep (ensureStep m ("h1", "Heading 1"))
          ("h2", "Heading 2")) ("p", "Normal")) ("table.StdTable", "Table Grid") := rfl

theorem ensureStep_lookup_self (m : List (String × String)) (e : String × String) :
    (dictLookup (ensureStep m e) e.1).isSome = true := by
  unfold ensureStep
  by_cases h : m.any (fun p => p.1 == e.1) = true
  · rw [if_pos h, dictLookup_isSome_iff]
    exact (any_beq_eq_true_iff m e.1).mp h
  · rw [if_neg h, dictLookup_dictInsert_self]; rfl

theorem ensureStep_preserves_some (m : List (String × String))
    (e : String × String) {k v : String} (h : dictLookup m k = some v) :
    dictLookup (ensureStep m e) k = some v := by
  unfold ensureStep
  by_cases ha : m.any (fun p => p.1 == e.1) = true
  · rw [if_pos ha]; exact h
  · rw [if_neg ha]
    by_cases hk : (e.1 == k) = true
    · exfalso
      apply ha
      rw [any_beq_eq_true_iff, eq_of_beq hk, ← dictLookup_isSome_iff, h]
      rfl
    · rw [dictLookup_dictInsert_ne m e.2 (by simpa using hk)]
      exact h

theorem ensureStep_preserves_isSome (m : List (String × String))
    (e : String × String) {k : String} (h : (dictLookup m k).isSome = true) :
    (dictLookup (ensureStep m e) k).isSome = true := by
  rcases Option.isSome_iff_exists.mp h with ⟨v, hv⟩
  rw [ensureStep_preserves_some m e hv]; rfl

theorem ensureStep_preserves_none (m : List (String × String))
    (e : String × String) {k : String} (hne : (e.1 == k) = false)
    (h : dictLookup m k = none) : dictLookup (ensureStep m e) k = none := by
  unfold ensureStep
  by_cases ha : m.any (fun p => p.1 == e.1) = true
  · rw [if_pos ha]; exact h
  · rw [if_neg ha, dictLookup_dictInsert_ne m e.2 hne]; exact h

theorem ensureStep_inserts_absent (m : List (String × String))
    (e : String × String) (h : dictLookup m e.1 = none) :
    dictLookup (ensureStep m e) e.1 = some e.2 := by
  unfold ensureStep
  have ha : ¬m.any (fun p => p.1 == e.1) = true := by
    intro hc
    have hm := (any_beq_eq_true_iff m e.1).mp hc
    rw [← dictLookup_isSome_iff, h] at hm
    exact absurd hm (by simp)
  rw [if_neg ha]
  exact dictLookup_dictInsert_self m e.1 e.2

theorem ensureStep_keys_sub (m : List (String × String)) (e : String × String)
    {k : String} (h : k ∈ dictKeys (ensureStep m e)) :
    k ∈ dictKeys m ∨ k = e.1 := by
  unfold ensureStep at h
  by_cases ha : m.any (fun p => p.1 == e.1) = true
  · rw [if_pos ha] at h; exact Or.inl h
  · rw [if_neg ha] at h; exact mem_dictKeys_dictInsert h

theorem ensureStep_nodup (m : List (String × String)) (e : String × String)
    (h : (dictKeys m).Nodup) : (dictKeys (ensureStep m e)).Nodup := by
  unfold ensureStep
  by_cases ha : m.any (fun p => p.1 == e.1) = true
  · rw [if_pos ha]; exact h
  · rw [if_neg ha]; exact dictKeys_nodup_dictInsert m e.1 e.2 h

theorem ensure_lookup_isSome (m : List (String × String)) :
    ∀ tag ∈ dictKeys essentials,
      (dictLookup (ensure_basic_mappings m) tag).isSome = true := by
  intro tag htag
  rw [ensure_basic_mappings_eq]
  have h4 : dictKeys essentials = ["h1", "h2", "p", "table.StdTable"] := rfl
  rw [h4] at htag
  simp only [List.mem_cons, List.not_mem_nil, or_false] at htag
  rcases htag with rfl | rfl | rfl | rfl
  · exact ensureStep_preserves_isSome _ _ (ensureStep_preserves_isSome _ _
      (ensureStep_preserves_isSome _ _ (ensureStep_lookup_self m ("h1", "Heading 1"))))
  · exact ensureStep_preserves_isSome _ _ (ensureStep_preserves_isSome _ _
      (ensureStep_lookup_self _ ("h2", "Heading 2")))
  · exact ensureStep_preserves_isSome _ _ (ensureStep_lookup_self _ ("p", "Normal"))
  · exact ensureStep_lookup_self _ ("table.StdTable", "Table Grid")

theorem ensure_default_of_absent (m : List (String × String)) :
    ∀ tag dflt : String, (tag, dflt) ∈ essentials →
      dictLookup m tag = none →
      dictLookup (ensure_basic_mappings m) tag = some dflt := by
  intro tag dflt hmem h
  rw [ensure_basic_mappings_eq]
  simp only [essentials, List.mem_cons, List.not_mem_nil, or_false,
    Prod.mk.injEq] at hmem
  rcases hmem with ⟨rfl, rfl⟩ | ⟨rfl, rfl⟩ | ⟨rfl, rfl⟩ | ⟨rfl, rfl⟩
  · exact ensureStep_preserves_some _ _ (ensureStep_preserves_some _ _
      (ensureStep_preserves_some _ _ (ensureStep_inserts_absent m _ h)))
  · exact ensureStep_preserves_some _ _ (ensureStep_preserves_some _ _
      (ensureStep_inserts_absent _ _ (ensureStep_preserves_none m _ (by decide) h)))
  · exact ensureStep_preserves_some _ _ (ensureStep_inserts_absent _ _
      (ensureStep_preserves_none _ _ (by decide)
        (ensureStep_preserves_none m _ (by decide) h)))
  · exact ensureStep_inserts_absent _ _
      (ensureStep_preserves_none _ _ (by decide)
        (ensureStep_preserves_none _ _ (by decide)
          (ensureStep_preserves_none m _ (by decide) h)))

theorem ensure_keys_sub (m : List (String × String)) {k : String}
    (h : k ∈ dictKeys (ensure_basic_mappings m)) :
    k ∈ dictKeys m ∨ k ∈ dictKeys essentials := by
  rw [ensure_basic_mappings_eq] at h
  rcases ensureStep_keys_sub _ _ h with h | rfl
  · rcases ensureStep_keys_sub _ _ h with h | rfl
    · rcases ensureStep_keys_sub _ _ h with h | rfl
      · rcases ensureStep_keys_sub _ _ h with h | rfl
        · exact Or.inl h
        · exact Or.inr (by decide)
      · exact Or.inr (by decide)
    · exact Or.inr (by decide)
  · exact Or.inr (by decide)

theorem ensure_nodup (m : List (String × String))
    (h : (dictKeys m).Nodup) : (dictKeys (ensure_basic_mappings m)).Nodup := by
  rw [ensure_basic_mappings_eq]
  exact ensureStep_nodup _ _ (ensureStep_nodup _ _ (ensureStep_nodup _ _
    (ensureStep_nodup _ _ h)))

/-! ### Lemmas about the mapping loop -/

theorem classifyStep_skip {sd : StyleDefinition} (h : isConsidered sd = false)
    (st : ClassState) : classifyStep st sd = st := by
  unfold classifyStep
  unfold isConsidered at h
  rw [h]
  rfl

theorem classifyStep_considered {sd : StyleDefinition} (h : isConsidered sd = true)
    (st : ClassState) : classifyStep st sd = processStyle st sd.name sd.kind := by
  unfold classifyStep
  unfold isConsidered at h
  rw [h]
  rfl

theorem processStyle_matched {st : ClassState} {n t tag : String}
    (h : map_style_to_html n t = some tag) :
    processStyle st n t = { st with mappings := dictInsert st.mappings tag n } := by
  unfold processStyle
  rw [h]

theorem processStyle_unmatched {st : ClassState} {n t : String}
    (h : map_style_to_html n t = none) :
    processStyle st n t =
      { st with
          fallbacks := dictInsert st.fallbacks n (generate_fallback_mapping n t),
          warnings := st.warnings ++ [fallbackWarning n (generate_fallback_mapping n t)] } := by
  unfold processStyle
  rw [h]

theorem map_style_to_html_mem_vocab {style_name style_type tag : String}
    (h : map_style_to_html style_name style_type = some tag) : tag ∈ vocabKeys := by
  simp only [map_style_to_html] at h
  split_ifs at h <;>
    first
      | (injection h with h; subst h; decide)
      | exact Option.noConfusion h

theorem mapInv_nil : MapInv [] :=
  ⟨List.nodup_nil, fun k hk => absurd hk (List.not_mem_nil k)⟩

theorem mapInv_dictInsert {m : List (String × String)} (h : MapInv m)
    {tag : String} (htag : tag ∈ vocabKeys) (v : String) :
    MapInv (dictInsert m tag v) := by
  constructor
  · exact dictKeys_nodup_dictInsert m tag v h.1
  · intro k hk
    rcases mem_dictKeys_dictInsert hk with hk | rfl
    · exact h.2 k hk
    · exact htag

theorem mapInv_processStyle {st : ClassState} (h : MapInv st.mappings)
    (n t : String) : MapInv (processStyle st n t).mappings := by
  cases hm : map_style_to_html n t with
  | none => rw [processStyle_unmatched hm]; exact h
  | some tag =>
      rw [processStyle_matched hm]
      exact mapInv_dictInsert h (map_style_to_html_mem_vocab hm) n

theorem mapInv_classifyStep {st : ClassState} (h : MapInv st.mappings)
    (sd : StyleDefinition) : MapInv (classifyStep st sd).mappings := by
  by_cases hc : isConsidered sd = true
  · rw [classifyStep_considered hc]
    exact mapInv_processStyle h sd.name sd.kind
  · rw [classifyStep_skip (by simpa using hc)]
    exact h

theorem mapInv_foldl : ∀ (l : List StyleDefinition) (st : ClassState),
    MapInv st.mappings → MapInv (l.foldl classifyStep st).mappings
  | [], _, h => h
  | sd :: rest, st, h => by
      rw [List.foldl_cons]
      exact mapInv_foldl rest _ (mapInv_classifyStep h sd)

theorem mapInv_generate (styles_data : List StyleDefinition) :
    MapInv (generate_html_semantic_mappings styles_data).styles := by
  have h := mapInv_foldl styles_data initState mapInv_nil
  constructor
  · exact ensure_nodup _ h.1
  · intro k hk
    rcases ensure_keys_sub _ hk with hk | hk
    · exact h.2 k hk
    · have hev : ∀ k ∈ dictKeys essentials, k ∈ vocabKeys := by decide
      exact hev k hk

theorem warnings_length_foldl : ∀ (l : List StyleDefinition) (st : ClassState),
    ((l.foldl classifyStep st).warnings).length
      = st.warnings.length + unmatchedCount l
  | [], st => by simp [unmatchedCount]
  | sd :: rest, st => by
      rw [List.foldl_cons, warnings_length_foldl rest]
      unfold unmatchedCount
      rw [List.filter_cons]
      by_cases hc : isConsidered sd = true
      · rw [classifyStep_considered hc]
        cases hm : map_style_to_html sd.name sd.kind with
        | some tag =>
            have hu : isUnmatched sd = false := by
              unfold isUnmatched
              rw [hc, hm]
              rfl
            rw [processStyle_matched hm, hu]
            simp [unmatchedCount]
        | none =>
            have hu : isUnmatched sd = true := by
              unfold isUnmatched
              rw [hc, hm]
              rfl
            rw [processStyle_unmatched hm, hu]
            simp [unmatchedCount]
            omega
      · have hc' : isConsidered sd = false := by simpa using hc
        have hu : isUnmatched sd = false := by
          unfold isUnmatched
          rw [hc']
          rfl
        rw [classifyStep_skip hc', hu]
        simp [unmatchedCount]

/-! ### Claim theorems -/

/-- C1 counterexample: on an unreadable package the pipeline does NOT fail.
`extract_styles_xml` catches the zip error and returns the empty catalog, so
`process_full_pipeline` reports `success = true` and produces a manifest,
refuting the claim that every unreadable input yields
`{success: false, error: ...}` with no manifest. -/
theorem pipeline_unreadable_reports_success :
    (process_full_pipeline (ZipResult.err "File is not a zip file")).success = true
      ∧ (process_full_pipeline
          (ZipResult.err "File is not a zip file")).style_manifest ≠ none := by
  decide

/-- C1 (amended): for every extraction failure (unreadable archive or
missing `word/styles.xml`), the error is swallowed inside
`extract_styles_xml` (which returns the empty catalog), and
`process_full_pipeline` returns a success result whose manifest consists of
exactly the four synthesized default mappings; extraction failure never
aborts the run. -/
theorem pipeline_swallows_unreadable (msg : String) :
    process_full_pipeline (ZipResult.err msg)
      = { success := true, error := none,
          style_manifest := some
            { version := "1.0", styles := essentials, fallbacks := [],
              warnings := [], vocabulary := vocabKeys,
              total_styles_found := 0, mapped_styles := 4,
              fallback_styles := 0 } } := rfl

/-- C2 counterexample: a style element whose style-identifier attribute is
absent is extracted WITHOUT any error and recorded under the defaulted key
`none`, refuting the claim that extraction fails with `MalformedPackage`
and never records such an element under a defaulted key. -/
theorem extract_missing_styleId_no_error :
    extract_styles_xml (ZipResult.ok
        [{ styleId := none, type_ := some "paragraph",
           nameElem := some (some "Broken Style"), basedOnElem := none }])
      = [(none, { name := some "Broken Style", type_ := some "paragraph",
                  basedOn := none })] := by
  decide

/-- C2 (amended): a style element lacking its style-identifier attribute
does not make extraction fail; the element is silently recorded under the
defaulted key `none` (its name in turn defaulting to `none` when the name
element is also missing). -/
theorem extract_missing_id_recorded
    (styles : List (Option String × StyleData)) (r : RawStyle)
    (h : r.styleId = none) :
    dictLookup (extractStyleElem styles r) none
      = some { name := r.nameElem.getD none, type_ := r.type_,
               basedOn := r.basedOnElem.getD none } := by
  unfold extractStyleElem
  rw [h]
  cases hn : r.nameElem <;> cases hb : r.basedOnElem <;>
    simp only [Option.getD_none, Option.getD_some] <;>
    exact dictLookup_dictInsert_self styles none _

/-- C2 witness: the amended theorem applied to a concrete element with a
missing style id. -/
theorem extract_missing_id_recorded_witness :
    dictLookup (extractStyleElem []
        { styleId := none, type_ := some "paragraph",
          nameElem := some (some "Broken Style"), basedOnElem := none }) none
      = some { name := some "Broken Style", type_ := some "paragraph",
               basedOn := none } :=
  extract_missing_id_recorded []
    { styleId := none, type_ := some "paragraph",
      nameElem := some (some "Broken Style"), basedOnElem := none } rfl

/-- C3 counterexample: a catalog holding exactly one character style has
`total_styles_found = 1` although zero styles are considered, refuting the
claim that `total_styles_found` counts only the considered
(paragraph/table) styles and that character styles are not counted. -/
theorem total_styles_counts_character_styles :
    (generate_html_semantic_mappings
        [{ id := "C1ch", name := "My Char Style",
           kind := "character" }]).total_styles_found = 1
      ∧ consideredCount
          [{ id := "C1ch", name := "My Char Style", kind := "character" }] = 0 := by
  decide

/-- C3 (amended): the manifest statistics are
`total_styles_found = len(styles_data)` (every extracted style regardless
of kind, character styles included), `mapped_styles = len(mappings)` (after
the ensure-basics pass) and `fallback_styles = len(fallbacks)`. -/
theorem statistics_formula (styles_data : List StyleDefinition) :
    (generate_html_semantic_mappings styles_data).total_styles_found
        = styles_data.length
      ∧ (generate_html_semantic_mappings styles_data).mapped_styles
        = (generate_html_semantic_mappings styles_data).styles.length
      ∧ (generate_html_semantic_mappings styles_data).fallback_styles
        = (generate_html_semantic_mappings styles_data).fallbacks.length :=
  ⟨rfl, rfl, rfl⟩

/-- C4: the match-tag heuristic checks rule 4 (name contains "body" or
"normal" → `p`) before rule 5 ("body text" → `p.BodyText`); hence every
style whose lower-cased name contains "body" and matches none of rules 1-3
is assigned `p`, and `_map_style_to_html` returns `p.BodyText` for no
input whatsoever. -/
theorem body_rule_shadows_bodytext :
    (∀ style_name style_type : String,
        pyContains (pyLower style_name) "body" = true →
        pyContains (pyLower style_name) "heading 1" = false →
        (pyLower style_name == "title") = false →
        pyContains (pyLower style_name) "heading 2" = false →
        pyContains (pyLower style_name) "subtitle" = false →
        pyContains (pyLower style_name) "heading 3" = false →
        map_style_to_html style_name style_type = some "p")
      ∧ ∀ style_name style_type : String,
          map_style_to_html style_name style_type ≠ some "p.BodyText" := by
  constructor
  · intro n t hb h1 h1' h2 h2' h3
    simp [map_style_to_html, hb, h1, h1', h2, h2', h3]
  · intro n t h
    simp only [map_style_to_html] at h
    split_ifs at h with c1 c2 c3 c4 c5 c6 c7 c8 c9 <;>
      first
        | exact absurd (Option.some.inj h) (by decide)
        | exact Option.noConfusion h
        | exact absurd (pyContains_body_of_body_text c5)
            (fun hb => c4 (by simp [hb]))

/-- C4 witness: "Body Text" itself lands on `p`, not `p.BodyText`. -/
theorem body_rule_shadows_bodytext_witness :
    map_style_to_html "Body Text" "paragraph" = some "p"
      ∧ map_style_to_html "Body Text" "paragraph" ≠ some "p.BodyText" :=
  ⟨body_rule_shadows_bodytext.1 "Body Text" "paragraph" (by decide) (by decide)
      (by decide) (by decide) (by decide) (by decide),
    body_rule_shadows_bodytext.2 "Body Text" "paragraph"⟩

/-- C5: for every input style sequence the manifest mappings contain all
four essential tags; an essential tag not matched during the loop is
synthesized with its fixed placeholder name; and on the empty sequence the
mappings are exactly the four synthesized defaults (classification is a
total function, so it never fails on well-formed input). -/
theorem essential_mappings_complete :
    (∀ styles_data : List StyleDefinition, ∀ tag ∈ dictKeys essentials,
        tag ∈ dictKeys (generate_html_semantic_mappings styles_data).styles)
      ∧ (∀ (styles_data : List StyleDefinition) (tag dflt : String),
          (tag, dflt) ∈ essentials →
          dictLookup (classifyFold styles_data).mappings tag = none →
          dictLookup (generate_html_semantic_mappings styles_data).styles tag
            = some dflt)
      ∧ (generate_html_semantic_mappings []).styles = essentials := by
  refine ⟨?_, ?_, ?_⟩
  · intro styles_data tag htag
    rw [← dictLookup_isSome_iff]
    exact ensure_lookup_isSome _ tag htag
  · intro styles_data tag dflt hmem h
    exact ensure_default_of_absent _ tag dflt hmem h
  · rfl

/-- C5 witness: on a catalog with one unrecognized paragraph style, `h1`
is present and the unmatched tag `h2` is synthesized with its
placeholder. -/
theorem essential_mappings_complete_witness :
    "h1" ∈ dictKeys (generate_html_semantic_mappings
        [{ id := "S1", name := "Zigzag", kind := "paragraph" }]).styles
      ∧ dictLookup (generate_html_semantic_mappings
          [{ id := "S1", name := "Zigzag", kind := "paragraph" }]).styles "h2"
        = some "Heading 2" :=
  ⟨essential_mappings_complete.1 _ "h1" (by decide),
    essential_mappings_complete.2.1 _ "h2" "Heading 2" (by decide) (by decide)⟩

/-- C6: last write wins. Whatever was recorded before, processing a
considered style that matches tag `t` overwrites `mappings[t]` with that
style's name; in particular two paragraph styles "Heading 1" then "Title"
leave `mappings["h1"] = "Title"`. -/
theorem last_write_wins :
    (∀ (st : ClassState) (sd : StyleDefinition) (tag : String),
        isConsidered sd = true →
        map_style_to_html sd.name sd.kind = some tag →
        dictLookup (classifyStep st sd).mappings tag = some sd.name)
      ∧ dictLookup (generate_html_semantic_mappings
          [{ id := "S1", name := "Heading 1", kind := "paragraph" },
           { id := "S2", name := "Title", kind := "paragraph" }]).styles "h1"
        = some "Title" := by
  constructor
  · intro st sd tag hc hm
    rw [classifyStep_considered hc, processStyle_matched hm]
    exact dictLookup_dictInsert_self st.mappings tag sd.name
  · decide

/-- C6 witness: the overwrite lemma applied at a concrete state and
style. -/
theorem last_write_wins_witness :
    dictLookup (classifyStep initState
        { id := "S1", name := "Heading 1", kind := "paragraph" }).mappings "h1"
      = some "Heading 1" :=
  last_write_wins.1 initState
    { id := "S1", name := "Heading 1", kind := "paragraph" } "h1"
    (by decide) (by decide)

/-- C7: every considered style matched by no heuristic rule is routed to
its fallback tag (`table.StdTable` when its kind is `table`, else `p`),
recorded as `fallbacks[name] = tag` together with exactly one appended
warning naming the style and the tag; consequently the number of warnings
equals the number of unmatched considered styles processed. -/
theorem fallback_routing_warnings :
    (∀ (st : ClassState) (sd : StyleDefinition),
        isConsidered sd = true →
        map_style_to_html sd.name sd.kind = none →
        classifyStep st sd =
          { mappings := st.mappings,
            fallbacks := dictInsert st.fallbacks sd.name
              (if sd.kind == "table" then "table.StdTable" else "p"),
            warnings := st.warnings ++
              [fallbackWarning sd.name
                (if sd.kind == "table" then "table.StdTable" else "p")] })
      ∧ ∀ styles_data : List StyleDefinition,
          (generate_html_semantic_mappings styles_data).warnings.length
            = unmatchedCount styles_data := by
  constructor
  · intro st sd hc hm
    rw [classifyStep_considered hc, processStyle_unmatched hm]
    rfl
  · intro styles_data
    show ((styles_data.foldl classifyStep initState).warnings).length
      = unmatchedCount styles_data
    rw [warnings_length_foldl styles_data initState]
    simp [initState]

/-- C7 witness: the unmatched paragraph style "Fancy Box" is routed to
`p` with one warning. -/
theorem fallback_routing_warnings_witness :
    classifyStep initState { id := "S5", name := "Fancy Box", kind := "paragraph" }
      = { mappings := initState.mappings,
          fallbacks := dictInsert initState.fallbacks "Fancy Box"
            (if ("paragraph" : String) == "table" then "table.StdTable" else "p"),
          warnings := initState.warnings ++
            [fallbackWarning "Fancy Box"
              (if ("paragraph" : String) == "table" then "table.StdTable" else "p")] } :=
  fallback_routing_warnings.1 initState
    { id := "S5", name := "Fancy Box", kind := "paragraph" } (by decide) (by decide)

/-- C8: a StyleDefinition whose kind is neither `paragraph` nor `table`
is skipped silently: removing it from the catalog changes neither the
mappings, nor the fallbacks, nor the warnings of the produced manifest. -/
theorem character_styles_skipped
    (xs ys : List StyleDefinition) (sd : StyleDefinition)
    (h : isConsidered sd = false) :
    (generate_html_semantic_mappings (xs ++ sd :: ys)).styles
        = (generate_html_semantic_mappings (xs ++ ys)).styles
      ∧ (generate_html_semantic_mappings (xs ++ sd :: ys)).fallbacks
        = (generate_html_semantic_mappings (xs ++ ys)).fallbacks
      ∧ (generate_html_semantic_mappings (xs ++ sd :: ys)).warnings
        = (generate_html_semantic_mappings (xs ++ ys)).warnings := by
  have key : classifyFold (xs ++ sd :: ys) = classifyFold (xs ++ ys) := by
    unfold classifyFold
    rw [List.foldl_append, List.foldl_append, List.foldl_cons, classifyStep_skip h]
  refine ⟨?_, ?_, ?_⟩
  · show ensure_basic_mappings (classifyFold (xs ++ sd :: ys)).mappings
      = ensure_basic_mappings (classifyFold (xs ++ ys)).mappings
    rw [key]
  · show (classifyFold (xs ++ sd :: ys)).fallbacks
      = (classifyFold (xs ++ ys)).fallbacks
    rw [key]
  · show (classifyFold (xs ++ sd :: ys)).warnings
      = (classifyFold (xs ++ ys)).warnings
    rw [key]

/-- C8 witness: dropping a concrete character style between two paragraph
styles leaves mappings, fallbacks and warnings unchanged. -/
theorem character_styles_skipped_witness :
    (generate_html_semantic_mappings
        ([{ id := "S1", name := "Heading 1", kind := "paragraph" }]
          ++ { id := "E1", name := "Emphasis", kind := "character" }
            :: [{ id := "S2", name := "Normal", kind := "paragraph" }])).styles
        = (generate_html_semantic_mappings
            ([{ id := "S1", name := "Heading 1", kind := "paragraph" }]
              ++ [{ id := "S2", name := "Normal", kind := "paragraph" }])).styles
      ∧ (generate_html_semantic_mappings
          ([{ id := "S1", name := "Heading 1", kind := "paragraph" }]
            ++ { id := "E1", name := "Emphasis", kind := "character" }
              :: [{ id := "S2", name := "Normal", kind := "paragraph" }])).fallbacks
        = (generate_html_semantic_mappings
            ([{ id := "S1", name := "Heading 1", kind := "paragraph" }]
              ++ [{ id := "S2", name := "Normal", kind := "paragraph" }])).fallbacks
      ∧ (generate_html_semantic_mappings
          ([{ id := "S1", name := "Heading 1", kind := "paragraph" }]
            ++ { id := "E1", name := "Emphasis", kind := "character" }
              :: [{ id := "S2", name := "Normal", kind := "paragraph" }])).warnings
        = (generate_html_semantic_mappings
            ([{ id := "S1", name := "Heading 1", kind := "paragraph" }]
              ++ [{ id := "S2", name := "Normal", kind := "paragraph" }])).warnings :=
  character_styles_skipped
    [{ id := "S1", name := "Heading 1", kind := "paragraph" }]
    [{ id := "S2", name := "Normal", kind := "paragraph" }]
    { id := "E1", name := "Emphasis", kind := "character" } (by decide)

/-- C9: classification is deterministic: identical input style sequences
produce identical mappings, fallbacks and warnings (the classifier is a
pure function of the catalog). -/
theorem classification_deterministic
    (xs ys : List StyleDefinition) (h : xs = ys) :
    (generate_html_semantic_mappings xs).styles
        = (generate_html_semantic_mappings ys).styles
      ∧ (generate_html_semantic_mappings xs).fallbacks
        = (generate_html_semantic_mappings ys).fallbacks
      ∧ (generate_html_semantic_mappings xs).warnings
        = (generate_html_semantic_mappings ys).warnings := by
  subst h
  exact ⟨rfl, rfl, rfl⟩

/-- C9 witness: determinism applied at a concrete catalog. -/
theorem classification_deterministic_witness :
    (generate_html_semantic_mappings
        [{ id := "S1", name := "Heading 1", kind := "paragraph" }]).styles
        = (generate_html_semantic_mappings
            [{ id := "S1", name := "Heading 1", kind := "paragraph" }]).styles
      ∧ (generate_html_semantic_mappings
          [{ id := "S1", name := "Heading 1", kind := "paragraph" }]).fallbacks
        = (generate_html_semantic_mappings
            [{ id := "S1", name := "Heading 1", kind := "paragraph" }]).fallbacks
      ∧ (generate_html_semantic_mappings
          [{ id := "S1", name := "Heading 1", kind := "paragraph" }]).warnings
        = (generate_html_semantic_mappings
            [{ id := "S1", name := "Heading 1", kind := "paragraph" }]).warnings :=
  classification_deterministic
    [{ id := "S1", name := "Heading 1", kind := "paragraph" }]
    [{ id := "S1", name := "Heading 1", kind := "paragraph" }] rfl

/-- C10: for every input catalog the manifest mapping keys lie inside the
fixed nine-tag vocabulary and contain the four essential tags, so
`4 ≤ mapped_styles ≤ 9` however many styles are supplied. -/
theorem mapped_styles_bounds (styles_data : List StyleDefinition) :
    (∀ k ∈ dictKeys (generate_html_semantic_mappings styles_data).styles,
        k ∈ vocabKeys)
      ∧ (∀ tag ∈ dictKeys essentials,
          tag ∈ dictKeys (generate_html_semantic_mappings styles_data).styles)
      ∧ 4 ≤ (generate_html_semantic_mappings styles_data).mapped_styles
      ∧ (generate_html_semantic_mappings styles_data).mapped_styles ≤ 9 := by
  have hinv := mapInv_generate styles_data
  have hess : ∀ tag ∈ dictKeys essentials,
      tag ∈ dictKeys (generate_html_semantic_mappings styles_data).styles := by
    intro tag htag
    rw [← dictLookup_isSome_iff]
    exact ensure_lookup_isSome _ tag htag
  refine ⟨hinv.2, hess, ?_, ?_⟩
  · have hsub : (dictKeys essentials).toFinset
        ⊆ (dictKeys (generate_html_semantic_mappings styles_data).styles).toFinset := by
      intro x hx
      rw [List.mem_toFinset] at hx ⊢
      exact hess x hx
    have hcard := Finset.card_le_card hsub
    have h4 : (dictKeys essentials).toFinset.card = 4 := by decide
    have heq : (dictKeys
          (generate_html_semantic_mappings styles_data).styles).toFinset.card
        = (dictKeys (generate_html_semantic_mappings styles_data).styles).length :=
      List.toFinset_card_of_nodup hinv.1
    have hlen : (dictKeys (generate_html_semantic_mappings styles_data).styles).length
        = (generate_html_semantic_mappings styles_data).styles.length :=
      dictKeys_length _
    have hms : (generate_html_semantic_mappings styles_data).mapped_styles
        = (generate_html_semantic_mappings styles_data).styles.length := rfl
    rw [hms, ← hlen, ← heq, ← h4]
    exact hcard
  · have hsub : (dictKeys
          (generate_html_semantic_mappings styles_data).styles).toFinset
        ⊆ vocabKeys.toFinset := by
      intro x hx
      rw [List.mem_toFinset] at hx ⊢
      exact hinv.2 x hx
    have hcard := Finset.card_le_card hsub
    have h9 : vocabKeys.toFinset.card = 9 := by decide
    have heq : (dictKeys
          (generate_html_semantic_mappings styles_data).styles).toFinset.card
        = (dictKeys (generate_html_semantic_mappings styles_data).styles).length :=
      List.toFinset_card_of_nodup hinv.1
    have hlen : (dictKeys (generate_html_semantic_mappings styles_data).styles).length
        = (generate_html_semantic_mappings styles_data).styles.length :=
      dictKeys_length _
    have hms : (generate_html_semantic_mappings styles_data).mapped_styles
        = (generate_html_semantic_mappings styles_data).styles.length := rfl
    rw [hms, ← hlen, ← heq, ← h9]
    exact hcard

/-- C10 witness: the bounds applied to the empty catalog. -/
theorem mapped_styles_bounds_witness :
    "h1" ∈ vocabKeys
      ∧ 4 ≤ (generate_html_semantic_mappings []).mapped_styles
      ∧ (generate_html_semantic_mappings []).mapped_styles ≤ 9 :=
  ⟨(mapped_styles_bounds []).1 "h1" (by decide),
    (mapped_styles_bounds []).2.2.1, (mapped_styles_bounds []).2.2.2⟩

end Textami
